import Mathlib

/-!
Verification development for the smart-glasses backend core
(`glasses_backend/main.py` and `glasses_backend/scene_service.py`).

The Python code is shallowly embedded: pure helpers become Lean functions,
external collaborators (directory listing, artifact loading, the generative
narrative service, the fuzzy absolute-date parser) become explicit
parameters, and Python exceptions become `Option`/outcome values.
-/

namespace Glasses

/-! ## Calendar model (CPython `datetime.date` semantics)

A civil date is a year/month/day triple.  CPython represents dates by their
proleptic-Gregorian ordinal (0001-01-01 is ordinal 1); arithmetic with
`timedelta` happens on ordinals and the `date`/`datetime` constructor
validates the resulting year/month/day (raising for year outside 1..9999).
-/

structure CivilDate where
  year : Nat
  month : Nat
  day : Nat
deriving DecidableEq, Repr

def isLeap (y : Nat) : Bool :=
  (y % 4 == 0 && y % 100 != 0) || y % 400 == 0

def daysInMonth (y m : Nat) : Nat :=
  if m = 2 then (if isLeap y then 29 else 28)
  else if m = 4 ∨ m = 6 ∨ m = 9 ∨ m = 11 then 30
  else 31

/-- The validity check performed by CPython's `date`/`datetime` constructor:
year in 1..9999, month in 1..12, day in 1..days-of-month. -/
def isValidDate (d : CivilDate) : Bool :=
  1 ≤ d.year && d.year ≤ 9999 && 1 ≤ d.month && d.month ≤ 12 &&
  1 ≤ d.day && d.day ≤ daysInMonth d.year d.month

/-- Proleptic-Gregorian ordinal of a date (CPython `date.toordinal`:
0001-01-01 has ordinal 1). -/
def toOrdinalN (d : CivilDate) : Nat :=
  let y := if d.month ≤ 2 then d.year - 1 else d.year
  let era := y / 400
  let yoe := y % 400
  let mp := (d.month + 9) % 12
  let doy := (153 * mp + 2) / 5 + (d.day - 1)
  let doe := yoe * 365 + yoe / 4 - yoe / 100 + doy
  era * 146097 + doe - 305

/-- Inverse conversion (CPython `date.fromordinal` for ordinals `≥ 1`). -/
def fromOrdinal (n : Nat) : CivilDate :=
  let z := n + 305
  let era := z / 146097
  let doe := z % 146097
  let yoe := (doe - doe / 1460 + doe / 36524 - doe / 146096) / 365
  let doy := doe - (365 * yoe + yoe / 4 - yoe / 100)
  let mp := (5 * doy + 2) / 153
  let d := doy - (153 * mp + 2) / 5 + 1
  let m := if mp < 10 then mp + 3 else mp - 9
  { year := (if m ≤ 2 then yoe + era * 400 + 1 else yoe + era * 400),
    month := m, day := d }

/-- Python `date.weekday()`: Monday = 0 … Sunday = 6. -/
def pyWeekday (d : CivilDate) : Nat :=
  (toOrdinalN d - 1) % 7

/-- Decimal digits of `n`, most significant first (fuel-driven so that the
kernel can evaluate it). -/
def decDigitsAux : Nat → Nat → List Char
  | 0, _ => []
  | fuel + 1, n =>
    if n < 10 then [Nat.digitChar n]
    else decDigitsAux fuel (n / 10) ++ [Nat.digitChar (n % 10)]

def decDigits (n : Nat) : List Char := decDigitsAux (n + 1) n

/-- Zero-pad the decimal representation of `n` to at least `k` characters
(the behaviour of `strftime` field widths). -/
def padDec (k n : Nat) : List Char :=
  List.replicate (k - (decDigits n).length) '0' ++ decDigits n

/-- Python `strftime("%Y%m%d")` on a date. -/
def fmtYmd (d : CivilDate) : String :=
  ⟨padDec 4 d.year ++ padDec 2 d.month ++ padDec 2 d.day⟩

/-- `date.fromordinal` guarded the way CPython arithmetic is: the ordinal
must be positive and the decoded date must pass the constructor's
validation; otherwise the Python code raises (modelled as `none`). -/
def dateFromOrd (i : Int) : Option CivilDate :=
  if i < 1 then none
  else
    let d := fromOrdinal i.toNat
    if isValidDate d then some d else none

/-- `now − relativedelta(months := n)`: subtract calendar months with the
day-of-month clamped to the target month's length, then validate. -/
def monthsBack (d : CivilDate) (n : Nat) : Option CivilDate :=
  let t : Int := (d.year * 12 + (d.month - 1) : Nat) - (n : Int)
  let y : Int := t / 12
  let m : Int := t % 12 + 1
  if y < 1 then none
  else
    let c : CivilDate := ⟨y.toNat, m.toNat, min d.day (daysInMonth y.toNat m.toNat)⟩
    if isValidDate c then some c else none

/-- `now − relativedelta(years := n)`: subtract calendar years with the
day-of-month clamped (Feb 29 → Feb 28), then validate. -/
def yearsBack (d : CivilDate) (n : Nat) : Option CivilDate :=
  let y : Int := (d.year : Int) - (n : Int)
  if y < 1 then none
  else
    let c : CivilDate := ⟨y.toNat, d.month, min d.day (daysInMonth y.toNat d.month)⟩
    if isValidDate c then some c else none

/-! ## Python string primitives used by the resolver -/

/-- ASCII model of Python's `\s` / `str.strip` whitespace class. -/
def isPySpace (c : Char) : Bool :=
  c = ' ' ∨ c = '\t' ∨ c = '\n' ∨ c = '\r' ∨ c = '\x0b' ∨ c = '\x0c'

def isDigitCh (c : Char) : Bool := '0' ≤ c && c ≤ '9'

/-- ASCII model of Python `str.lower`. -/
def pyLowerCh (c : Char) : Char :=
  if 'A' ≤ c ∧ c ≤ 'Z' then Char.ofNat (c.toNat + 32) else c

def pyLower (s : List Char) : List Char := s.map pyLowerCh

/-- Python `str.strip()` (both ends). -/
def pyStrip (s : List Char) : List Char :=
  ((s.dropWhile isPySpace).reverse.dropWhile isPySpace).reverse

/-- Python substring containment (`pat in hay`). -/
def containsSub (hay pat : List Char) : Bool :=
  match hay with
  | [] => pat.isEmpty
  | _ :: t => pat.isPrefixOf hay || containsSub t pat

def containsAny (hay : List Char) (pats : List (List Char)) : Bool :=
  pats.any (containsSub hay)

def digitsToNat (ds : List Char) : Nat :=
  ds.foldl (fun a c => 10 * a + (c.toNat - '0'.toNat)) 0

/-- Attempt of the regex `(\d+)\s+<unit>s?\s+ago` anchored at the current
position: a nonempty digit run, whitespace, the unit word with an optional
plural `s`, whitespace, then `ago`.  Returns the numeric group. -/
def matchNumAgoAt (unit : List Char) (s : List Char) : Option Nat :=
  let ds := s.takeWhile isDigitCh
  if ds.isEmpty then none
  else
    let r1 := s.drop ds.length
    let w1 := r1.takeWhile isPySpace
    if w1.isEmpty then none
    else
      let r2 := r1.drop w1.length
      if unit.isPrefixOf r2 then
        let r3 := r2.drop unit.length
        let r4 := if r3.head? = some 's' then r3.tail else r3
        let w2 := r4.takeWhile isPySpace
        if w2.isEmpty then none
        else if ('a' :: 'g' :: 'o' :: []).isPrefixOf (r4.drop w2.length) then
          some (digitsToNat ds)
        else none
      else none

/-- `re.search` for the pattern above: leftmost match wins. -/
def searchNumAgo (unit : List Char) : List Char → Option Nat
  | [] => none
  | c :: cs =>
    match matchNumAgoAt unit (c :: cs) with
    | some n => some n
    | none => searchNumAgo unit cs

/-! ## The date-expression resolver (`main.py`, `parse_natural_language_date`)

The reference instant `now` (Python `datetime.now()`) and the external fuzzy
absolute-date parser (`dateutil.parser.parse(query, fuzzy=True)`, whose
failure is swallowed by `try/except`) are injected.  An uncaught Python
exception — the out-of-range `OverflowError`/`ValueError` of `datetime`
arithmetic — is modelled as `none`. -/

def todayPhrases : List (List Char) :=
  ["today".data, "my day so far".data, "this day".data, "current day".data]

def yesterdayPhrases : List (List Char) :=
  ["yesterday".data, "yesterdays".data]

def tomorrowPhrases : List (List Char) :=
  ["tomorrow".data, "tomorrows".data]

def weekdayNames : List (List Char × Nat) :=
  [("monday".data, 0), ("tuesday".data, 1), ("wednesday".data, 2),
   ("thursday".data, 3), ("friday".data, 4), ("saturday".data, 5),
   ("sunday".data, 6)]

/-- `query.lower().strip()`. -/
def normQuery (q : String) : List Char := pyStrip (pyLower q.data)

/-- The weekday loop: first dictionary entry whose `"last <name>"` phrase is
contained in the query wins. -/
def weekdayLookup (ql : List Char) : Option Nat :=
  weekdayNames.findSome? fun p =>
    if containsSub ql ('l' :: 'a' :: 's' :: 't' :: ' ' :: p.1) then some p.2 else none

def ordI (d : CivilDate) : Int := (toOrdinalN d : Int)

def fmtOrd (i : Int) : Option String := (dateFromOrd i).map fmtYmd

/-- The `days_since` computation of the weekday rule:
`(today.weekday() - day_num) % 7`, forced to `7` when it is `0`. -/
def daysSinceFn (now : CivilDate) (k : Nat) : Int :=
  if ((pyWeekday now : Int) - (k : Int)) % 7 = 0 then 7
  else ((pyWeekday now : Int) - (k : Int)) % 7

def parse_natural_language_date (query : String) (now : CivilDate)
    (fuzzy : Option CivilDate) : Option String :=
  if containsAny (normQuery query) todayPhrases then some (fmtYmd now)
  else if containsAny (normQuery query) yesterdayPhrases then fmtOrd (ordI now - 1)
  else if containsAny (normQuery query) tomorrowPhrases then fmtOrd (ordI now + 1)
  else
    match searchNumAgo "day".data (normQuery query) with
    | some n => fmtOrd (ordI now - n)
    | none =>
    match searchNumAgo "week".data (normQuery query) with
    | some n => fmtOrd (ordI now - 7 * n)
    | none =>
    match searchNumAgo "month".data (normQuery query) with
    | some n => (monthsBack now n).map fmtYmd
    | none =>
    match searchNumAgo "year".data (normQuery query) with
    | some n => (yearsBack now n).map fmtYmd
    | none =>
    if containsSub (normQuery query) "last week".data then fmtOrd (ordI now - 7)
    else if containsSub (normQuery query) "last month".data then (monthsBack now 1).map fmtYmd
    else if containsSub (normQuery query) "last year".data then (yearsBack now 1).map fmtYmd
    else
      match weekdayLookup (normQuery query) with
      | some k => fmtOrd (ordI now - daysSinceFn now k)
      | none =>
        match fuzzy with
        | some d => some (fmtYmd d)
        | none => some (fmtYmd now)

/-! ## The markdown sanitizer (`scene_service.py`, `strip_markdown`)

Each `re.sub` call is embedded as a left-to-right scanner.  A scanner step
attempts the pattern at the current position; on success it yields the
replacement text to emit, the remaining input, and whether the next position
starts a line (for `^` under `re.MULTILINE`); on failure one character is
emitted and scanning continues.  The Python patterns here are deterministic:
greedy/lazy pieces are delimited so backtracking never changes the match.
-/

def backquoteCh : Char := Char.ofNat 96

structure SubStep where
  out : List Char
  rest : List Char
  atStart : Bool

def scanSub (att : Bool → List Char → Option SubStep) :
    Nat → Bool → List Char → List Char
  | 0, _, s => s
  | _ + 1, _, [] => []
  | fuel + 1, st, c :: cs =>
    match att st (c :: cs) with
    | some r => r.out ++ scanSub att fuel r.atStart r.rest
    | none => c :: scanSub att fuel (c = '\n') cs

def stripPass (att : Bool → List Char → Option SubStep) (s : List Char) : List Char :=
  scanSub att s.length true s

/-- `^#{1,6}\s+` (MULTILINE): 1–6 hashes at line start followed by
whitespace (which, as `\s`, may run across newlines). -/
def attHeaders (st : Bool) (s : List Char) : Option SubStep :=
  if !st then none
  else
    let hs := s.takeWhile (· = '#')
    if 1 ≤ hs.length ∧ hs.length ≤ 6 then
      let r := s.drop hs.length
      let ws := r.takeWhile isPySpace
      if ws.isEmpty then none
      else some ⟨[], r.drop ws.length, ws.getLastD ' ' == '\n'⟩
    else none

/-- Closing delimiter search for `dd(.*?)dd`: the lazy group takes the
earliest double delimiter, and `.` stops at newlines. -/
def findPairClose (d : Char) : List Char → Option (List Char × List Char)
  | a :: b :: t =>
    if a = d ∧ b = d then some ([], t)
    else if a = '\n' then none
    else (findPairClose d (b :: t)).map (fun p => (a :: p.1, p.2))
  | _ => none

/-- `\*\*(.*?)\*\*` / `__(.*?)__` → `\1`. -/
def attPair (d : Char) (_ : Bool) (s : List Char) : Option SubStep :=
  match s with
  | a :: b :: t =>
    if a = d ∧ b = d then (findPairClose d t).map (fun p => ⟨p.1, p.2, false⟩)
    else none
  | _ => none

def findSingleClose (d : Char) : List Char → Option (List Char × List Char)
  | [] => none
  | a :: t =>
    if a = d then some ([], t)
    else if a = '\n' then none
    else (findSingleClose d t).map (fun p => (a :: p.1, p.2))

/-- `\*(.*?)\*`, `_(.*?)_` and `` `(.*?)` `` → `\1`. -/
def attSingle (d : Char) (_ : Bool) (s : List Char) : Option SubStep :=
  match s with
  | a :: t =>
    if a = d then (findSingleClose d t).map (fun p => ⟨p.1, p.2, false⟩)
    else none
  | [] => none

def findFenceClose (d : Char) : List Char → Option (List Char)
  | a :: b :: c :: t =>
    if a = d ∧ b = d ∧ c = d then some t else findFenceClose d (b :: c :: t)
  | _ => none

/-- ```` ```.*?``` ```` with DOTALL → removed entirely. -/
def attFence (_ : Bool) (s : List Char) : Option SubStep :=
  match s with
  | a :: b :: c :: t =>
    if a = backquoteCh ∧ b = backquoteCh ∧ c = backquoteCh then
      (findFenceClose backquoteCh t).map (fun r => ⟨[], r, false⟩)
    else none
  | _ => none

/-- `\[([^\]]+)\]\([^)]+\)` → `\1`. -/
def attLink (_ : Bool) (s : List Char) : Option SubStep :=
  match s with
  | '[' :: t =>
    let c1 := t.takeWhile (· ≠ ']')
    if c1.isEmpty then none
    else
      match t.drop c1.length with
      | ']' :: '(' :: u =>
        let c2 := u.takeWhile (· ≠ ')')
        if c2.isEmpty then none
        else
          match u.drop c2.length with
          | ')' :: v => some ⟨c1, v, false⟩
          | _ => none
      | _ => none
  | _ => none

/-- `^---$` / `^\*\*\*$` (MULTILINE): the exact rule line, keeping the
newline that closes it. -/
def attHrLine (pat : List Char) (st : Bool) (s : List Char) : Option SubStep :=
  if !st then none
  else if pat.isPrefixOf s then
    match s.drop pat.length with
    | [] => some ⟨[], [], false⟩
    | '\n' :: t => some ⟨[], '\n' :: t, false⟩
    | _ => none
  else none

/-- `^>\s+` (MULTILINE). -/
def attBlockquote (st : Bool) (s : List Char) : Option SubStep :=
  if !st then none
  else
    match s with
    | '>' :: t =>
      let ws := t.takeWhile isPySpace
      if ws.isEmpty then none
      else some ⟨[], t.drop ws.length, ws.getLastD ' ' == '\n'⟩
    | _ => none

/-- Shared shape of `^[\s]*<marker>\s+` (MULTILINE): optional leading
whitespace, a marker, then mandatory whitespace, all removed. -/
def attItemMarkGen (consume : List Char → Option (List Char)) (st : Bool)
    (s : List Char) : Option SubStep :=
  if !st then none
  else
    let ws1 := s.takeWhile isPySpace
    match consume (s.drop ws1.length) with
    | none => none
    | some t =>
      let ws2 := t.takeWhile isPySpace
      if ws2.isEmpty then none
      else some ⟨[], t.drop ws2.length, ws2.getLastD ' ' == '\n'⟩

def bulletMarker : List Char → Option (List Char)
  | c :: t => if c = '-' ∨ c = '*' ∨ c = '+' then some t else none
  | [] => none

def numMarker (r : List Char) : Option (List Char) :=
  let ds := r.takeWhile isDigitCh
  if ds.isEmpty then none
  else
    match r.drop ds.length with
    | '.' :: t => some t
    | _ => none

def attListMark (st : Bool) (s : List Char) : Option SubStep :=
  attItemMarkGen bulletMarker st s

def attNumMark (st : Bool) (s : List Char) : Option SubStep :=
  attItemMarkGen numMarker st s

/-- `\n\s*\n\s*\n` → `\n\n`: a newline whose following whitespace window
holds at least two more newlines; the match runs through the window's last
newline. -/
def attCollapse (_ : Bool) (s : List Char) : Option SubStep :=
  match s with
  | '\n' :: t =>
    let w := t.takeWhile isPySpace
    if 2 ≤ w.count '\n' then
      some ⟨['\n', '\n'], (w.reverse.takeWhile (· ≠ '\n')).reverse ++ t.drop w.length, true⟩
    else none
  | _ => none

/-- `^\s+` (MULTILINE): leading whitespace of a line (running across
newlines, so blank lines are swallowed). -/
def attLeadWs (st : Bool) (s : List Char) : Option SubStep :=
  if !st then none
  else
    let ws := s.takeWhile isPySpace
    if ws.isEmpty then none
    else some ⟨[], s.drop ws.length, ws.getLastD ' ' == '\n'⟩

/-- `\s+$` (MULTILINE): a whitespace run closed by end-of-text is removed
whole; otherwise the run is trimmed up to its last interior newline. -/
def attTrailWs (_ : Bool) (s : List Char) : Option SubStep :=
  let run := s.takeWhile isPySpace
  if run.isEmpty then none
  else
    let after := s.drop run.length
    if after.isEmpty then some ⟨[], [], false⟩
    else
      let idx := run.length - 1 - (run.reverse.takeWhile (· ≠ '\n')).length
      if 1 ≤ idx then some ⟨run.drop idx, after, run.getLastD ' ' == '\n'⟩
      else none

/-- Shared shape of `^\s*<marker>\s*$` (MULTILINE): an otherwise-empty
marker line; with text following, the match stops at the trailing
whitespace's last newline, which is rescanned. -/
def attEmptyItemGen (consume : List Char → Option (List Char)) (st : Bool)
    (s : List Char) : Option SubStep :=
  if !st then none
  else
    let ws1 := s.takeWhile isPySpace
    match consume (s.drop ws1.length) with
    | none => none
    | some t =>
      let ws2 := t.takeWhile isPySpace
      let after := t.drop ws2.length
      if after.isEmpty then some ⟨[], [], false⟩
      else
        let idx := ws2.length - 1 - (ws2.reverse.takeWhile (· ≠ '\n')).length
        if 1 ≤ ws2.count '\n' then
          some ⟨[], ws2.drop idx ++ after, (ws2.take idx).getLastD '.' == '\n'⟩
        else none

def attEmptyBullet (st : Bool) (s : List Char) : Option SubStep :=
  attEmptyItemGen bulletMarker st s

def attEmptyNum (st : Bool) (s : List Char) : Option SubStep :=
  attEmptyItemGen numMarker st s

/-- `strip_markdown` from `scene_service.py`: the ordered pipeline of
regex substitutions followed by a final `str.strip()`.  Empty input passes
through unchanged (`if not text`). -/
def strip_markdown (text : String) : String :=
  if text.data.isEmpty then text
  else
    let s1 := stripPass attHeaders text.data
    let s2 := stripPass (attPair '*') s1
    let s3 := stripPass (attPair '_') s2
    let s4 := stripPass (attSingle '*') s3
    let s5 := stripPass (attSingle '_') s4
    let s6 := stripPass attFence s5
    let s7 := stripPass (attSingle backquoteCh) s6
    let s8 := stripPass attLink s7
    let s9 := stripPass (attHrLine "---".data) s8
    let s10 := stripPass (attHrLine "***".data) s9
    let s11 := stripPass attBlockquote s10
    let s12 := stripPass attListMark s11
    let s13 := stripPass attNumMark s12
    let s14 := stripPass attCollapse s13
    let s15 := stripPass attLeadWs s14
    let s16 := stripPass attTrailWs s15
    let s17 := stripPass attEmptyBullet s16
    let s18 := stripPass attEmptyNum s17
    ⟨pyStrip s18⟩

/-! ## The scene index and recap synthesizer (`scene_service.py`)

External collaborators are injected: `listing` is what `os.listdir` yields
for the `scenes` directory (in directory order), `loader` tells whether a
stored artifact opens successfully (`Image.open`), and `genaiResp` is the
narrative service's response text (`none` models a raised exception).  A
result dict with `status`/`description` keys is `RecapOutcome.ok`; the
outer `except` branch's `status: error` dict is `RecapOutcome.err`. -/

structure RecapResult where
  status : String
  description : String
  source : String
  scenes_used : List String
  scene_count : Nat
deriving DecidableEq, Repr

inductive RecapOutcome where
  | ok (r : RecapResult)
  | err (message : String)
deriving DecidableEq, Repr

def scenesDir : String := "scenes"

/-- `SceneService.get_daily_scenes`: filenames starting with
`scene_<date>` (defaulting the date to today's key), joined onto the
scenes directory, in directory-listing order. -/
def get_daily_scenes (listing : List String) (now : CivilDate)
    (dateArg : Option String) : List String :=
  let date := dateArg.getD (fmtYmd now)
  (listing.filter (fun f => ("scene_" ++ date).data.isPrefixOf f.data)).map
    (fun f => scenesDir ++ "/" ++ f)

def noDataTodayMsg : String :=
  "I don\x27t have any photos from today yet. It looks like you haven\x27t taken any pictures with your glasses today, or they haven\x27t been saved yet."

def noDataOtherMsg (readable : String) : String :=
  "I don\x27t have any photos from " ++ readable ++ ". It seems like you didn\x27t take any pictures with your glasses on that day, or they weren\x27t saved."

def noDataNoDateMsg : String :=
  "I don\x27t have any photos from today yet. It looks like you haven\x27t taken any pictures with your glasses today."

def loadErrorMsg : String :=
  "I found some photos from that day, but I\x27m having trouble loading them right now. This might be a temporary issue with the files or storage. You could try again in a moment, or check if the photos are still available."

def recapFailMsg : String :=
  "I\x27m having trouble creating your daily recap right now. This might be a temporary issue with the photo processing or storage. You could try again in a moment."

/-- The `YYYY-MM-DD` rendering of a date key by slicing (`date[:4]` etc.). -/
def readableOf (date : String) : String :=
  ⟨date.data.take 4 ++ '-' :: ((date.data.drop 4).take 2) ++ '-' :: ((date.data.drop 6).take 2)⟩

/-- `SceneService.get_daily_recap`.  The inner `try/except` around the date
slicing cannot fire (Python slicing is total), so it is not modelled.
Python's truthiness test `if date:` is false for both `None` and `""`. -/
def get_daily_recap (listing : List String) (now : CivilDate)
    (dateArg : Option String) (loader : String → Bool)
    (genaiResp : Option String) : RecapOutcome :=
  let scenes := get_daily_scenes listing now dateArg
  if scenes.isEmpty then
    let msg :=
      match dateArg with
      | some date =>
        if date.data.isEmpty then noDataNoDateMsg
        else if date = fmtYmd now then noDataTodayMsg
        else noDataOtherMsg (readableOf date)
      | none => noDataNoDateMsg
    .ok ⟨"success", msg, "no_data", [], 0⟩
  else
    let loaded := scenes.filter loader
    if loaded.isEmpty then .ok ⟨"success", loadErrorMsg, "load_error", [], 0⟩
    else
      match genaiResp with
      | some t => .ok ⟨"success", strip_markdown t, "daily_recap", scenes, loaded.length⟩
      | none => .err recapFailMsg

/-! ## Spec-side ordering of scene records

The specification orders a bucket's records by the captured time parsed
from the filename convention; the definitions below express that ordering
so theorems can compare the code's behaviour against it. -/

/-- Characters after the last `/` of a path. -/
def baseNameCh (s : List Char) : List Char :=
  (s.reverse.takeWhile (· ≠ '/')).reverse

/-- Modelled from the spec: the captured time-of-day of a scene record,
parsed from the filename convention `scene_<YYYYMMDD>_<HHMMSS>.<ext>`;
`none` when the timestamp is unparsable. -/
def specCapturedTime (p : String) : Option Nat :=
  let b := baseNameCh p.data
  if ("scene_".data).isPrefixOf b then
    let r := b.drop 6
    let dpart := r.take 8
    if dpart.length = 8 ∧ dpart.all isDigitCh then
      match r.drop 8 with
      | '_' :: r2 =>
        let t := r2.take 6
        if t.length = 6 ∧ t.all isDigitCh then some (digitsToNat t) else none
      | _ => none
    else none
  else none

def chronoLE : Option Nat → Option Nat → Bool
  | some a, some b => a ≤ b
  | some _, none => true
  | none, some _ => false
  | none, none => true

def chronoChain : List (Option Nat) → Bool
  | [] => true
  | [_] => true
  | a :: b :: t => chronoLE a b && chronoChain (b :: t)

/-- Modelled from the spec: a record list is chronologically ordered when
captured times ascend and records with unparsable timestamps come after
all parsable ones. -/
def specSortedByTime (l : List String) : Bool :=
  chronoChain (l.map specCapturedTime)

/-- Size contract of a scanner attempt: a successful step never emits more
than it consumes and always consumes at least one character. -/
def AttBound (att : Bool → List Char → Option SubStep) : Prop :=
  ∀ st s r, att st s = some r →
    r.out.length + r.rest.length ≤ s.length ∧ r.rest.length < s.length

/-! ## Lemmas: the sanitizer never lengthens its input -/

theorem takeWhile_length_le (p : Char → Bool) (l : List Char) :
    (l.takeWhile p).length ≤ l.length :=
  (List.takeWhile_sublist p).length_le

theorem count_takeWhile_ne (a : Char) (l : List Char) :
    ((l.takeWhile (fun c => c ≠ a)).count a) = 0 := by
  rw [List.count_eq_zero]
  intro hmem
  have := List.mem_takeWhile_imp hmem
  simp at this

theorem scanSub_length_le {att : Bool → List Char → Option SubStep}
    (h : AttBound att) :
    ∀ fuel st s, (scanSub att fuel st s).length ≤ s.length := by
  intro fuel
  induction fuel with
  | zero => intro st s; simp [scanSub]
  | succ n ih =>
    intro st s
    cases s with
    | nil => simp [scanSub]
    | cons c cs =>
      rw [scanSub]
      cases ha : att st (c :: cs) with
      | none =>
        simpa using Nat.succ_le_succ (ih (c = '\n') cs)
      | some r =>
        have hb := h st (c :: cs) r ha
        have hrec := ih r.atStart r.rest
        simp only [List.length_append]
        omega

theorem stripPass_length_le {att : Bool → List Char → Option SubStep}
    (h : AttBound att) (s : List Char) : (stripPass att s).length ≤ s.length :=
  scanSub_length_le h _ _ _

theorem pyStrip_length_le (s : List Char) : (pyStrip s).length ≤ s.length := by
  unfold pyStrip
  simp only [List.length_reverse]
  exact le_trans ((List.dropWhile_sublist _).length_le)
    (by simpa using (List.dropWhile_sublist (l := s) isPySpace).length_le)

theorem attHeaders_bound : AttBound attHeaders := by
  intro st s r h
  simp only [attHeaders] at h
  split at h
  · exact absurd h (by simp)
  split at h
  · split at h
    · exact absurd h (by simp)
    · rename_i hlen hws
      cases h
      have h1 := takeWhile_length_le (· = '#') s
      have h2 := takeWhile_length_le isPySpace (s.drop (s.takeWhile (· = '#')).length)
      have h3 : ((s.drop (s.takeWhile (· = '#')).length).drop
          ((s.drop (s.takeWhile (· = '#')).length).takeWhile isPySpace).length).length =
          (s.drop (s.takeWhile (· = '#')).length).length -
          ((s.drop (s.takeWhile (· = '#')).length).takeWhile isPySpace).length :=
        List.length_drop _ _
      have h4 : (s.drop (s.takeWhile (· = '#')).length).length =
          s.length - (s.takeWhile (· = '#')).length := List.length_drop _ _
      have h5 : ((s.drop (s.takeWhile (· = '#')).length).takeWhile isPySpace).length ≠ 0 := by
        simpa [List.isEmpty_iff, List.length_eq_zero] using hws
      simp only [List.length_nil]
      omega
  · exact absurd h (by simp)

theorem findPairClose_bound (d : Char) :
    ∀ s p, findPairClose d s = some p → p.1.length + p.2.length + 2 ≤ s.length := by
  intro s
  induction s with
  | nil => intro p h; simp [findPairClose] at h
  | cons a t ih =>
    intro p h
    cases t with
    | nil => simp [findPairClose] at h
    | cons b u =>
      simp only [findPairClose] at h
      split at h
      · cases h; simp
      · split at h
        · exact absurd h (by simp)
        · rw [Option.map_eq_some'] at h
          obtain ⟨q, hq, rfl⟩ := h
          have := ih q hq
          simp only [List.length_cons] at this ⊢
          omega

theorem attPair_bound (d : Char) : AttBound (attPair d) := by
  intro st s r h
  cases s with
  | nil => simp [attPair] at h
  | cons a t =>
    cases t with
    | nil => simp [attPair] at h
    | cons b u =>
      simp only [attPair] at h
      split at h
      · rw [Option.map_eq_some'] at h
        obtain ⟨q, hq, rfl⟩ := h
        have := findPairClose_bound d u q hq
        simp only [List.length_cons]
        omega
      · exact absurd h (by simp)

theorem findSingleClose_bound (d : Char) :
    ∀ s p, findSingleClose d s = some p → p.1.length + p.2.length + 1 ≤ s.length := by
  intro s
  induction s with
  | nil => intro p h; simp [findSingleClose] at h
  | cons a t ih =>
    intro p h
    simp only [findSingleClose] at h
    split at h
    · cases h; simp
    · split at h
      · exact absurd h (by simp)
      · rw [Option.map_eq_some'] at h
        obtain ⟨q, hq, rfl⟩ := h
        have := ih q hq
        simp only [List.length_cons]
        omega

theorem attSingle_bound (d : Char) : AttBound (attSingle d) := by
  intro st s r h
  cases s with
  | nil => simp [attSingle] at h
  | cons a t =>
    simp only [attSingle] at h
    split at h
    · rw [Option.map_eq_some'] at h
      obtain ⟨q, hq, rfl⟩ := h
      have := findSingleClose_bound d t q hq
      simp only [List.length_cons]
      omega
    · exact absurd h (by simp)

theorem findFenceClose_bound (d : Char) :
    ∀ s r, findFenceClose d s = some r → r.length + 3 ≤ s.length := by
  intro s
  induction s with
  | nil => intro r h; simp [findFenceClose] at h
  | cons a t ih =>
    intro r h
    cases t with
    | nil => simp [findFenceClose] at h
    | cons b u =>
      cases u with
      | nil => simp [findFenceClose] at h
      | cons c v =>
        simp only [findFenceClose] at h
        split at h
        · cases h; simp
        · have := ih r h
          simp only [List.length_cons] at this ⊢
          omega

theorem attFence_bound : AttBound attFence := by
  intro st s r h
  cases s with
  | nil => simp [attFence] at h
  | cons a t =>
    cases t with
    | nil => simp [attFence] at h
    | cons b u =>
      cases u with
      | nil => simp [attFence] at h
      | cons c v =>
        simp only [attFence] at h
        split at h
        · rw [Option.map_eq_some'] at h
          obtain ⟨q, hq, rfl⟩ := h
          have := findFenceClose_bound backquoteCh v q hq
          simp only [List.length_cons, List.length_nil]
          omega
        · exact absurd h (by simp)

theorem attLink_bound : AttBound attLink := by
  intro st s r h
  simp only [attLink] at h
  split at h
  case _ t =>
    split at h
    · exact absurd h (by simp)
    · split at h
      case _ u heq =>
        split at h
        · exact absurd h (by simp)
        · split at h
          case _ v heq2 =>
            cases h
            have h1 := takeWhile_length_le (· ≠ ']') t
            have h2 := takeWhile_length_le (· ≠ ')') u
            have h3 := congrArg List.length heq
            have h4 := congrArg List.length heq2
            simp only [List.length_drop, List.length_cons] at h3 h4
            simp only [List.length_cons]
            omega
          case _ => exact absurd h (by simp)
      case _ => exact absurd h (by simp)
  case _ => exact absurd h (by simp)

theorem attHrLine_bound (pat : List Char) (hp : pat ≠ []) : AttBound (attHrLine pat) := by
  intro st s r h
  simp only [attHrLine] at h
  split at h
  · exact absurd h (by simp)
  split at h
  · rename_i hpre
    have hple : pat.length ≤ s.length := by
      have := List.isPrefixOf_iff_prefix.mp hpre
      exact this.length_le
    have hppos : 0 < pat.length := List.length_pos.mpr hp
    split at h
    case _ hdrop =>
      cases h
      have := congrArg List.length hdrop
      simp only [List.length_drop, List.length_nil] at this
      simp only [List.length_nil]
      omega
    case _ t hdrop =>
      cases h
      have := congrArg List.length hdrop
      simp only [List.length_drop, List.length_cons] at this
      simp only [List.length_nil, List.length_cons]
      omega
    case _ => exact absurd h (by simp)
  · exact absurd h (by simp)

theorem attBlockquote_bound : AttBound attBlockquote := by
  intro st s r h
  simp only [attBlockquote] at h
  split at h
  · exact absurd h (by simp)
  split at h
  case _ t =>
    split at h
    · exact absurd h (by simp)
    · rename_i hws
      cases h
      have h1 := takeWhile_length_le isPySpace t
      have h2 : (t.takeWhile isPySpace).length ≠ 0 := by
        simpa [List.isEmpty_iff, List.length_eq_zero] using hws
      simp only [List.length_nil, List.length_drop, List.length_cons]
      omega
  case _ => exact absurd h (by simp)

theorem attItemMarkGen_bound (consume : List Char → Option (List Char))
    (hc : ∀ x t, consume x = some t → t.length < x.length) :
    AttBound (attItemMarkGen consume) := by
  intro st s r h
  simp only [attItemMarkGen] at h
  split at h
  · exact absurd h (by simp)
  split at h
  · exact absurd h (by simp)
  case _ t hcons =>
    split at h
    · exact absurd h (by simp)
    · rename_i hws
      cases h
      have h1 := hc _ _ hcons
      have h2 := takeWhile_length_le isPySpace t
      have h3 : (t.takeWhile isPySpace).length ≠ 0 := by
        simpa [List.isEmpty_iff, List.length_eq_zero] using hws
      have h4 : (s.drop (s.takeWhile isPySpace).length).length =
          s.length - (s.takeWhile isPySpace).length := List.length_drop _ _
      simp only [List.length_nil, List.length_drop]
      omega

theorem bulletMarker_bound :
    ∀ x t, bulletMarker x = some t → t.length < x.length := by
  intro x t h
  cases x with
  | nil => simp [bulletMarker] at h
  | cons c u =>
    simp only [bulletMarker] at h
    split at h
    · cases h; simp
    · exact absurd h (by simp)

theorem numMarker_bound :
    ∀ x t, numMarker x = some t → t.length < x.length := by
  intro x t h
  simp only [numMarker] at h
  split at h
  · exact absurd h (by simp)
  · split at h
    case _ u heq =>
      cases h
      have h1 := takeWhile_length_le isDigitCh x
      have h2 := congrArg List.length heq
      simp only [List.length_drop, List.length_cons] at h2
      omega
    case _ => exact absurd h (by simp)

theorem attCollapse_bound : AttBound attCollapse := by
  intro st s r h
  simp only [attCollapse] at h
  split at h
  case _ t =>
    split at h
    · rename_i hcnt
      cases h
      have hw := takeWhile_length_le isPySpace t
      have hsplit := List.takeWhile_append_dropWhile
        (p := fun c => c ≠ '\n') (l := (t.takeWhile isPySpace).reverse)
      have hlen := congrArg List.length hsplit
      have hcount := congrArg (List.count '\n') hsplit
      simp only [List.length_append, List.length_reverse] at hlen
      simp only [List.count_append, List.count_reverse, count_takeWhile_ne] at hcount
      have hcl := List.count_le_length '\n'
        (((t.takeWhile isPySpace).reverse).dropWhile (fun c => c ≠ '\n'))
      simp only [List.length_cons, List.length_append, List.length_reverse,
        List.length_drop, List.length_nil]
      omega
    · exact absurd h (by simp)
  case _ => exact absurd h (by simp)

theorem attLeadWs_bound : AttBound attLeadWs := by
  intro st s r h
  simp only [attLeadWs] at h
  split at h
  · exact absurd h (by simp)
  split at h
  · exact absurd h (by simp)
  · rename_i hws
    cases h
    have h1 := takeWhile_length_le isPySpace s
    have h2 : (s.takeWhile isPySpace).length ≠ 0 := by
      simpa [List.isEmpty_iff, List.length_eq_zero] using hws
    simp only [List.length_nil, List.length_drop]
    omega

theorem attTrailWs_bound : AttBound attTrailWs := by
  intro st s r h
  simp only [attTrailWs] at h
  split at h
  · exact absurd h (by simp)
  · rename_i hrun
    have h1 := takeWhile_length_le isPySpace s
    have h2 : (s.takeWhile isPySpace).length ≠ 0 := by
      simpa [List.isEmpty_iff, List.length_eq_zero] using hrun
    split at h
    · rename_i hafter
      cases h
      simp only [List.length_nil]
      omega
    · split at h
      · rename_i hafter hidx
        cases h
        have h3 : (s.takeWhile isPySpace).length < s.length := by
          simpa [List.isEmpty_iff, List.length_eq_zero] using hafter
        simp only [List.length_drop]
        omega
      · exact absurd h (by simp)

theorem attEmptyItemGen_bound (consume : List Char → Option (List Char))
    (hc : ∀ x t, consume x = some t → t.length < x.length) :
    AttBound (attEmptyItemGen consume) := by
  intro st s r h
  simp only [attEmptyItemGen] at h
  split at h
  · exact absurd h (by simp)
  split at h
  · exact absurd h (by simp)
  case _ t hcons =>
    have h1 := hc _ _ hcons
    have h2 := takeWhile_length_le isPySpace t
    have h4 : (s.drop (s.takeWhile isPySpace).length).length =
        s.length - (s.takeWhile isPySpace).length := List.length_drop _ _
    split at h
    · cases h
      simp only [List.length_nil]
      omega
    · split at h
      · cases h
        simp only [List.length_nil, List.length_append, List.length_drop]
        omega
      · exact absurd h (by simp)

theorem attListMark_bound : AttBound attListMark :=
  attItemMarkGen_bound bulletMarker bulletMarker_bound

theorem attNumMark_bound : AttBound attNumMark :=
  attItemMarkGen_bound numMarker numMarker_bound

theorem attEmptyBullet_bound : AttBound attEmptyBullet :=
  attEmptyItemGen_bound bulletMarker bulletMarker_bound

theorem attEmptyNum_bound : AttBound attEmptyNum :=
  attEmptyItemGen_bound numMarker numMarker_bound

/-- One pass of the sanitizer pipeline never lengthens the text; chaining
all eighteen passes and the final strip gives the sanitizer's bound. -/
theorem strip_markdown_length_le (t : String) :
    (strip_markdown t).length ≤ t.length := by
  unfold strip_markdown
  split
  · exact le_refl _
  · simp only [String.length]
    refine le_trans (pyStrip_length_le _) ?_
    refine le_trans (stripPass_length_le attEmptyNum_bound _) ?_
    refine le_trans (stripPass_length_le attEmptyBullet_bound _) ?_
    refine le_trans (stripPass_length_le attTrailWs_bound _) ?_
    refine le_trans (stripPass_length_le attLeadWs_bound _) ?_
    refine le_trans (stripPass_length_le attCollapse_bound _) ?_
    refine le_trans (stripPass_length_le attNumMark_bound _) ?_
    refine le_trans (stripPass_length_le attListMark_bound _) ?_
    refine le_trans (stripPass_length_le attBlockquote_bound _) ?_
    refine le_trans (stripPass_length_le (attHrLine_bound "***".data (by decide)) _) ?_
    refine le_trans (stripPass_length_le (attHrLine_bound "---".data (by decide)) _) ?_
    refine le_trans (stripPass_length_le attLink_bound _) ?_
    refine le_trans (stripPass_length_le (attSingle_bound backquoteCh) _) ?_
    refine le_trans (stripPass_length_le attFence_bound _) ?_
    refine le_trans (stripPass_length_le (attSingle_bound '_') _) ?_
    refine le_trans (stripPass_length_le (attSingle_bound '*') _) ?_
    refine le_trans (stripPass_length_le (attPair_bound '_') _) ?_
    refine le_trans (stripPass_length_le (attPair_bound '*') _) ?_
    exact stripPass_length_le attHeaders_bound _

/-! ## Claim theorems -/

/-- Claim C2, counterexample: the sanitizer is not idempotent.  Stripping
`"# # x"` once removes only the first header marker, exposing a new header
that a second pass removes. -/
theorem claim_C2_counterexample :
    strip_markdown (strip_markdown "# # x") ≠ strip_markdown "# # x" := by
  decide

/-- Claim C2 (amended): a second application of the sanitizer need not be
the identity — it can strip markdown newly exposed by the first pass — but
it never lengthens the once-sanitized text, so iterated sanitization
converges. -/
theorem claim_C2_theorem (x : String) :
    (strip_markdown (strip_markdown x)).length ≤ (strip_markdown x).length :=
  strip_markdown_length_le (strip_markdown x)

/-- Claim C1, counterexample: the scene listing performs no sort — a
directory listing whose 15:00 record precedes its 07:00 record is returned
in that same order, which is not ascending by captured time. -/
theorem claim_C1_counterexample :
    get_daily_scenes ["scene_20250620_150000.jpg", "scene_20250620_070000.jpg"]
        ⟨2025, 6, 21⟩ (some "20250620") =
      ["scenes/scene_20250620_150000.jpg", "scenes/scene_20250620_070000.jpg"] ∧
    specSortedByTime
      (get_daily_scenes ["scene_20250620_150000.jpg", "scene_20250620_070000.jpg"]
        ⟨2025, 6, 21⟩ (some "20250620")) = false := by
  constructor
  · decide
  · decide

/-- Claim C1 (amended): for every date bucket the scene listing returns
exactly the records whose filename carries the bucket's prefix, joined onto
the scenes directory, preserving directory-listing order throughout — with
no sorting by captured time. -/
theorem claim_C1_theorem (listing : List String) (now : CivilDate) (d : String) :
    (get_daily_scenes listing now (some d)).Sublist
      (listing.map (fun f => scenesDir ++ "/" ++ f)) ∧
    ∀ p, p ∈ get_daily_scenes listing now (some d) ↔
      ∃ f, f ∈ listing ∧ ("scene_" ++ d).data.isPrefixOf f.data = true ∧
        p = scenesDir ++ "/" ++ f := by
  constructor
  · exact (List.filter_sublist listing).map _
  · intro p
    simp only [get_daily_scenes, Option.getD_some, List.mem_map, List.mem_filter]
    constructor
    · rintro ⟨f, ⟨hf, hpre⟩, rfl⟩
      exact ⟨f, hf, hpre, rfl⟩
    · rintro ⟨f, hf, hpre, rfl⟩
      exact ⟨f, ⟨hf, hpre⟩, rfl⟩

/-- Claim C3: rule order is decisive — any query containing a rule-1 phrase
("today", "my day so far", "this day", "current day") resolves to now's
date, and when rule 1 does not fire, any query containing "yesterday"
(in particular one that also names a "last <weekday>") resolves via the
yesterday rule to now minus one day. -/
theorem claim_C3_theorem (q : String) (now : CivilDate) (fz : Option CivilDate) :
    (containsAny (normQuery q) todayPhrases = true →
      parse_natural_language_date q now fz = some (fmtYmd now)) ∧
    (containsAny (normQuery q) todayPhrases = false →
      containsAny (normQuery q) yesterdayPhrases = true →
      parse_natural_language_date q now fz = fmtOrd (ordI now - 1)) := by
  constructor
  · intro h1
    simp [parse_natural_language_date, h1]
  · intro h1 h2
    simp [parse_natural_language_date, h1, h2]

theorem claim_C3_witness :
    parse_natural_language_date "Recap my day so far" ⟨2025, 6, 20⟩ none =
      some "20250620" ∧
    parse_natural_language_date "what about yesterday and last friday" ⟨2025, 6, 20⟩ none =
      some "20250619" := by
  constructor
  · exact (( claim_C3_theorem "Recap my day so far" ⟨2025, 6, 20⟩ none).1
      (by decide)).trans (by decide)
  · exact (( claim_C3_theorem "what about yesterday and last friday" ⟨2025, 6, 20⟩ none).2
      (by decide) (by decide)).trans (by decide)

/-- Claim C9: when no earlier rule fires and the "N weeks ago" pattern
matches, the resolver returns now minus 7·N calendar days. -/
theorem claim_C9_theorem (q : String) (now : CivilDate) (fz : Option CivilDate) (n : Nat)
    (h1 : containsAny (normQuery q) todayPhrases = false)
    (h2 : containsAny (normQuery q) yesterdayPhrases = false)
    (h3 : containsAny (normQuery q) tomorrowPhrases = false)
    (h4 : searchNumAgo "day".data (normQuery q) = none)
    (h5 : searchNumAgo "week".data (normQuery q) = some n) :
    parse_natural_language_date q now fz = fmtOrd (ordI now - 7 * n) := by
  simp [parse_natural_language_date, h1, h2, h3, h4, h5]

theorem claim_C9_witness :
    parse_natural_language_date "what happened 2 weeks ago" ⟨2025, 6, 20⟩ none =
      some "20250606" :=
  ( claim_C9_theorem "what happened 2 weeks ago" ⟨2025, 6, 20⟩ none 2
    (by decide) (by decide) (by decide) (by decide) (by decide)).trans (by decide)

/-- Claim C4: when no earlier rule fires and the weekday loop finds
`last <weekday-name>` with target `k`, the resolver returns now minus
`days_since` days where `days_since = (now.weekday() - k) mod 7` forced to
`7` when zero; `days_since` always lies in 1..7 and equals 7 exactly when
now already is that weekday, so the result is never the current date. -/
theorem claim_C4_theorem (q : String) (now : CivilDate) (fz : Option CivilDate) (k : Nat)
    (h1 : containsAny (normQuery q) todayPhrases = false)
    (h2 : containsAny (normQuery q) yesterdayPhrases = false)
    (h3 : containsAny (normQuery q) tomorrowPhrases = false)
    (h4 : searchNumAgo "day".data (normQuery q) = none)
    (h5 : searchNumAgo "week".data (normQuery q) = none)
    (h6 : searchNumAgo "month".data (normQuery q) = none)
    (h7 : searchNumAgo "year".data (normQuery q) = none)
    (h8 : containsSub (normQuery q) "last week".data = false)
    (h9 : containsSub (normQuery q) "last month".data = false)
    (h10 : containsSub (normQuery q) "last year".data = false)
    (h11 : weekdayLookup (normQuery q) = some k) :
    parse_natural_language_date q now fz = fmtOrd (ordI now - daysSinceFn now k) ∧
    1 ≤ daysSinceFn now k ∧ daysSinceFn now k ≤ 7 ∧
    (pyWeekday now = k → daysSinceFn now k = 7) := by
  refine ⟨?_, ?_, ?_, ?_⟩
  · simp [parse_natural_language_date, h1, h2, h3, h4, h5, h6, h7, h8, h9, h10, h11]
  · unfold daysSinceFn
    split
    · norm_num
    · have := Int.emod_nonneg ((pyWeekday now : Int) - k) (by norm_num : (7 : Int) ≠ 0)
      omega
  · unfold daysSinceFn
    split
    · exact le_refl _
    · have := Int.emod_lt_of_pos ((pyWeekday now : Int) - k) (by norm_num : (0 : Int) < 7)
      omega
  · intro hk
    unfold daysSinceFn
    rw [hk]
    simp

theorem claim_C4_witness :
    parse_natural_language_date "what happened last Monday" ⟨2025, 6, 20⟩ none =
      some "20250616" ∧
    parse_natural_language_date "what happened last Monday" ⟨2025, 6, 16⟩ none =
      some "20250609" ∧
    parse_natural_language_date "what happened last Monday" ⟨2025, 6, 16⟩ none ≠
      some (fmtYmd ⟨2025, 6, 16⟩) := by
  have H1 := ( claim_C4_theorem "what happened last Monday" ⟨2025, 6, 20⟩ none 0
    (by decide) (by decide) (by decide) (by decide) (by decide) (by decide)
    (by decide) (by decide) (by decide) (by decide) (by decide)).1
  have H2 := ( claim_C4_theorem "what happened last Monday" ⟨2025, 6, 16⟩ none 0
    (by decide) (by decide) (by decide) (by decide) (by decide) (by decide)
    (by decide) (by decide) (by decide) (by decide) (by decide)).1
  refine ⟨H1.trans (by decide), H2.trans (by decide), ?_⟩
  rw [H2]
  decide

/-! ## Lemmas: every key the resolver emits is an 8-digit string -/

theorem decDigitsAux_length_le :
    ∀ fuel n k : Nat, n < 10 ^ k → 1 ≤ k → (decDigitsAux fuel n).length ≤ k := by
  intro fuel
  induction fuel with
  | zero => intro n k _ _; simp [decDigitsAux]
  | succ m ih =>
    intro n k hn hk
    rw [decDigitsAux]
    split
    · simpa using hk
    · rename_i hge
      have hk2 : 2 ≤ k := by
        rcases Nat.lt_or_ge k 2 with hlt | hge2
        · have hk1 : k = 1 := by omega

          subst hk1
          simp at hn
          omega
        · exact hge2
      have hpow : 10 ^ k = 10 ^ (k - 1) * 10 := by
        rw [← pow_succ]
        congr 1
        omega
      have hdiv : n / 10 < 10 ^ (k - 1) := by
        rw [Nat.div_lt_iff_lt_mul (by norm_num)]
        omega
      have := ih (n / 10) (k - 1) hdiv (by omega)
      simp only [List.length_append, List.length_cons, List.length_nil]
      omega

theorem decDigits_length_le (n k : Nat) (hn : n < 10 ^ k) (hk : 1 ≤ k) :
    (decDigits n).length ≤ k :=
  decDigitsAux_length_le _ n k hn hk

theorem padDec_length (k n : Nat) (h : (decDigits n).length ≤ k) :
    (padDec k n).length = k := by
  simp only [padDec, List.length_append, List.length_replicate]
  omega

theorem daysInMonth_le31 (y m : Nat) : daysInMonth y m ≤ 31 := by
  unfold daysInMonth
  split
  · split <;> norm_num
  · split <;> norm_num

theorem fmtYmd_length (d : CivilDate) (h : isValidDate d = true) :
    (fmtYmd d).length = 8 := by
  unfold isValidDate at h
  simp only [Bool.and_eq_true, decide_eq_true_eq] at h
  obtain ⟨⟨⟨⟨⟨hy1, hy2⟩, hm1⟩, hm2⟩, hd1⟩, hd2⟩ := h
  have hday : d.day ≤ 31 := le_trans hd2 (daysInMonth_le31 _ _)
  show (padDec 4 d.year ++ padDec 2 d.month ++ padDec 2 d.day).length = 8
  rw [List.length_append, List.length_append,
    padDec_length 4 _ (decDigits_length_le _ 4 (by norm_num; omega) (by norm_num)),
    padDec_length 2 _ (decDigits_length_le _ 2 (by norm_num; omega) (by norm_num)),
    padDec_length 2 _ (decDigits_length_le _ 2 (by norm_num; omega) (by norm_num))]

theorem dateFromOrd_valid {i : Int} {d : CivilDate} (h : dateFromOrd i = some d) :
    isValidDate d = true := by
  simp only [dateFromOrd] at h
  split at h
  · exact absurd h (by simp)
  · split at h
    · rename_i hv
      cases h
      exact hv
    · exact absurd h (by simp)

theorem monthsBack_valid {x : CivilDate} {n : Nat} {d : CivilDate}
    (h : monthsBack x n = some d) : isValidDate d = true := by
  simp only [monthsBack] at h
  split at h
  · exact absurd h (by simp)
  · split at h
    · rename_i hv
      cases h
      exact hv
    · exact absurd h (by simp)

theorem yearsBack_valid {x : CivilDate} {n : Nat} {d : CivilDate}
    (h : yearsBack x n = some d) : isValidDate d = true := by
  simp only [yearsBack] at h
  split at h
  · exact absurd h (by simp)
  · split at h
    · rename_i hv
      cases h
      exact hv
    · exact absurd h (by simp)

theorem fmtOrd_length {i : Int} {s : String} (h : fmtOrd i = some s) :
    s.length = 8 := by
  unfold fmtOrd at h
  rw [Option.map_eq_some'] at h
  obtain ⟨d, hd, rfl⟩ := h
  exact fmtYmd_length d (dateFromOrd_valid hd)

/-- Claim C8, counterexample: the resolver is not total — a huge relative
offset drives the date arithmetic out of the supported calendar range and
the Python code raises (modelled as `none`) instead of returning a key. -/
theorem claim_C8_counterexample :
    parse_natural_language_date "1000000 days ago" ⟨2025, 6, 20⟩ none = none := by
  decide

/-- Claim C8 (amended): whenever the resolver does return a key it is an
8-digit `YYYYMMDD` string (given a valid reference date and a fuzzy parser
returning valid dates), and when no rule matches and the fuzzy parse fails
it falls back to now's date; but a matched relative offset that leaves the
representable year range 1..9999 raises instead of returning. -/
theorem claim_C8_theorem (q : String) (now : CivilDate) (fz : Option CivilDate)
    (hnow : isValidDate now = true)
    (hfz : ∀ d, fz = some d → isValidDate d = true) :
    (∀ s, parse_natural_language_date q now fz = some s → s.length = 8) ∧
    (containsAny (normQuery q) todayPhrases = false →
     containsAny (normQuery q) yesterdayPhrases = false →
     containsAny (normQuery q) tomorrowPhrases = false →
     searchNumAgo "day".data (normQuery q) = none →
     searchNumAgo "week".data (normQuery q) = none →
     searchNumAgo "month".data (normQuery q) = none →
     searchNumAgo "year".data (normQuery q) = none →
     containsSub (normQuery q) "last week".data = false →
     containsSub (normQuery q) "last month".data = false →
     containsSub (normQuery q) "last year".data = false →
     weekdayLookup (normQuery q) = none →
     fz = none →
     parse_natural_language_date q now fz = some (fmtYmd now)) := by
  constructor
  · intro s hp
    cases fz with
    | none =>
      unfold parse_natural_language_date at hp
      split at hp
      · cases hp; exact fmtYmd_length now hnow
      split at hp
      · exact fmtOrd_length hp
      split at hp
      · exact fmtOrd_length hp
      split at hp
      · exact fmtOrd_length hp
      split at hp
      · exact fmtOrd_length hp
      split at hp
      · rw [Option.map_eq_some'] at hp
        obtain ⟨d, hd, rfl⟩ := hp
        exact fmtYmd_length d (monthsBack_valid hd)
      split at hp
      · rw [Option.map_eq_some'] at hp
        obtain ⟨d, hd, rfl⟩ := hp
        exact fmtYmd_length d (yearsBack_valid hd)
      split at hp
      · exact fmtOrd_length hp
      split at hp
      · rw [Option.map_eq_some'] at hp
        obtain ⟨d, hd, rfl⟩ := hp
        exact fmtYmd_length d (monthsBack_valid hd)
      split at hp
      · rw [Option.map_eq_some'] at hp
        obtain ⟨d, hd, rfl⟩ := hp
        exact fmtYmd_length d (yearsBack_valid hd)
      split at hp
      · exact fmtOrd_length hp
      · cases hp
        exact fmtYmd_length now hnow
    | some x =>
      unfold parse_natural_language_date at hp
      split at hp
      · cases hp; exact fmtYmd_length now hnow
      split at hp
      · exact fmtOrd_length hp
      split at hp
      · exact fmtOrd_length hp
      split at hp
      · exact fmtOrd_length hp
      split at hp
      · exact fmtOrd_length hp
      split at hp
      · rw [Option.map_eq_some'] at hp
        obtain ⟨d, hd, rfl⟩ := hp
        exact fmtYmd_length d (monthsBack_valid hd)
      split at hp
      · rw [Option.map_eq_some'] at hp
        obtain ⟨d, hd, rfl⟩ := hp
        exact fmtYmd_length d (yearsBack_valid hd)
      split at hp
      · exact fmtOrd_length hp
      split at hp
      · rw [Option.map_eq_some'] at hp
        obtain ⟨d, hd, rfl⟩ := hp
        exact fmtYmd_length d (monthsBack_valid hd)
      split at hp
      · rw [Option.map_eq_some'] at hp
        obtain ⟨d, hd, rfl⟩ := hp
        exact fmtYmd_length d (yearsBack_valid hd)
      split at hp
      · exact fmtOrd_length hp
      · cases hp
        exact fmtYmd_length x (hfz x rfl)
  · intro g1 g2 g3 g4 g5 g6 g7 g8 g9 g10 g11 hfznone
    subst hfznone
    simp [parse_natural_language_date, g1, g2, g3, g4, g5, g6, g7, g8, g9, g10, g11]

theorem claim_C8_witness :
    parse_natural_language_date "gibberish" ⟨2025, 6, 20⟩ none = some "20250620" ∧
    "20250620".length = 8 := by
  have H := claim_C8_theorem "gibberish" ⟨2025, 6, 20⟩ none (by decide)
    (fun d h => by cases h)
  have h2 := H.2 (by decide) (by decide) (by decide) (by decide) (by decide)
    (by decide) (by decide) (by decide) (by decide) (by decide) (by decide) rfl
  have he : parse_natural_language_date "gibberish" ⟨2025, 6, 20⟩ none =
      some "20250620" := h2.trans (by decide)
  exact ⟨he, H.1 "20250620" he⟩

/-! ## Recap synthesizer claims -/

/-- Claim C5: when records exist for the bucket but every one of them fails
to load, the recap is a well-formed success result with source
`load_error`, empty used-list and zero count (never a raised exception),
and its message suggests trying again. -/
theorem claim_C5_theorem (listing : List String) (now : CivilDate)
    (dateArg : Option String) (loader : String → Bool) (genaiResp : Option String)
    (hne : get_daily_scenes listing now dateArg ≠ [])
    (hall : ∀ p ∈ get_daily_scenes listing now dateArg, loader p = false) :
    get_daily_recap listing now dateArg loader genaiResp =
      .ok ⟨"success", loadErrorMsg, "load_error", [], 0⟩ ∧
    containsSub loadErrorMsg.data "try again".data = true := by
  constructor
  · have h1 : (get_daily_scenes listing now dateArg).isEmpty = false :=
      List.isEmpty_eq_false.mpr hne
    have h2 : (get_daily_scenes listing now dateArg).filter loader = [] :=
      List.filter_eq_nil_iff.mpr (fun a ha => by simp [hall a ha])
    simp [get_daily_recap, h1, h2]
  · decide

set_option maxRecDepth 8000 in
theorem claim_C5_witness :
    get_daily_recap ["scene_20250620_100000.jpg"] ⟨2025, 6, 21⟩ (some "20250620")
        (fun _ => false) none =
      .ok ⟨"success", loadErrorMsg, "load_error", [], 0⟩ :=
  ( claim_C5_theorem ["scene_20250620_100000.jpg"] ⟨2025, 6, 21⟩ (some "20250620")
    (fun _ => false) none (by decide) (by decide)).1

theorem stringLength_append (a b : String) :
    (a ++ b).length = a.length + b.length := by
  cases a
  cases b
  simp [String.length, String.append]

theorem readableOf_length (d : String) (h : d.length = 8) :
    (readableOf d).length = 10 := by
  have hd : d.data.length = 8 := h
  show (d.data.take 4 ++ '-' :: ((d.data.drop 4).take 2) ++
    '-' :: ((d.data.drop 6).take 2)).length = 10
  simp only [List.length_append, List.length_cons, List.length_take, List.length_drop]
  omega

set_option maxRecDepth 8000 in
/-- Claim C6: a bucket with zero records yields a success result with
source `no_data`, zero count and an empty used-list, whose message is the
today-specific text when the bucket is today's and otherwise embeds the
formatted date; the two messages are distinct. -/
theorem claim_C6_theorem (listing : List String) (now : CivilDate) (d : String)
    (loader : String → Bool) (genaiResp : Option String)
    (hlen : d.length = 8)
    (hemp : get_daily_scenes listing now (some d) = []) :
    get_daily_recap listing now (some d) loader genaiResp =
      .ok ⟨"success",
        (if d = fmtYmd now then noDataTodayMsg else noDataOtherMsg (readableOf d)),
        "no_data", [], 0⟩ ∧
    noDataOtherMsg (readableOf d) ≠ noDataTodayMsg := by
  have hdne : d.data.isEmpty = false := by
    rw [List.isEmpty_eq_false]
    intro hnil
    have h8 : d.data.length = 8 := hlen
    simp [hnil] at h8
  constructor
  · simp [get_daily_recap, hemp, hdne]
  · intro heq
    have hL := congrArg String.length heq
    simp only [noDataOtherMsg] at hL
    rw [stringLength_append, stringLength_append, readableOf_length d hlen] at hL
    exact absurd hL (by decide)

set_option maxRecDepth 8000 in
theorem claim_C6_witness :
    get_daily_recap [] ⟨2025, 6, 20⟩ (some "20250619") (fun _ => true) none =
      .ok ⟨"success", noDataOtherMsg "2025-06-19", "no_data", [], 0⟩ ∧
    get_daily_recap [] ⟨2025, 6, 20⟩ (some "20250620") (fun _ => true) none =
      .ok ⟨"success", noDataTodayMsg, "no_data", [], 0⟩ := by
  have H1 := (claim_C6_theorem [] ⟨2025, 6, 20⟩ "20250619" (fun _ => true) none
    (by decide) (by decide)).1
  have H2 := (claim_C6_theorem [] ⟨2025, 6, 20⟩ "20250620" (fun _ => true) none
    (by decide) (by decide)).1
  exact ⟨H1.trans (by decide), H2.trans (by decide)⟩

set_option maxRecDepth 8000 in
/-- Claim C7, counterexample: with three loadable records listed out of
time order and a successful narrative call, the recap reports count 3 and
exactly those paths — but in directory order, which is not ascending by
captured time, contradicting the claim's ordering clause. -/
theorem claim_C7_counterexample :
    get_daily_recap
        ["scene_20250620_120000.jpg", "scene_20250620_090000.jpg",
         "scene_20250620_100000.jpg"]
        ⟨2025, 6, 21⟩ (some "20250620") (fun _ => true) (some "A busy day.") =
      .ok ⟨"success", "A busy day.", "daily_recap",
        ["scenes/scene_20250620_120000.jpg", "scenes/scene_20250620_090000.jpg",
         "scenes/scene_20250620_100000.jpg"], 3⟩ ∧
    specSortedByTime
      ["scenes/scene_20250620_120000.jpg", "scenes/scene_20250620_090000.jpg",
       "scenes/scene_20250620_100000.jpg"] = false := by
  constructor
  · decide
  · decide

/-- Claim C7 (amended): with exactly three candidate records, all loadable,
and a successful narrative call, the recap returns `scene_count = 3` and
`scenes_used` containing exactly those three paths in directory-listing
order. -/
theorem claim_C7_theorem (listing : List String) (now : CivilDate)
    (dateArg : Option String) (loader : String → Bool) (t : String)
    (p1 p2 p3 : String)
    (hsc : get_daily_scenes listing now dateArg = [p1, p2, p3])
    (hl1 : loader p1 = true) (hl2 : loader p2 = true) (hl3 : loader p3 = true) :
    get_daily_recap listing now dateArg loader (some t) =
      .ok ⟨"success", strip_markdown t, "daily_recap", [p1, p2, p3], 3⟩ := by
  simp [get_daily_recap, hsc, List.filter_cons, hl1, hl2, hl3]

set_option maxRecDepth 8000 in
theorem claim_C7_witness :
    get_daily_recap
        ["scene_20250620_090000.jpg", "scene_20250620_100000.jpg",
         "scene_20250620_120000.jpg"]
        ⟨2025, 6, 21⟩ (some "20250620") (fun _ => true) (some "Morning to noon.") =
      .ok ⟨"success", "Morning to noon.", "daily_recap",
        ["scenes/scene_20250620_090000.jpg", "scenes/scene_20250620_100000.jpg",
         "scenes/scene_20250620_120000.jpg"], 3⟩ := by
  have H := claim_C7_theorem
    ["scene_20250620_090000.jpg", "scene_20250620_100000.jpg",
     "scene_20250620_120000.jpg"]
    ⟨2025, 6, 21⟩ (some "20250620") (fun _ => true) "Morning to noon."
    "scenes/scene_20250620_090000.jpg" "scenes/scene_20250620_100000.jpg"
    "scenes/scene_20250620_120000.jpg" (by decide) rfl rfl rfl
  exact H.trans (by decide)

/-- Claim C10: on the `daily_recap` path, `scenes_used` is the full
candidate list (including paths that failed to load) while `scene_count`
counts only the successfully loaded records, so the count never exceeds the
used-list's length and is strictly below it whenever some record fails. -/
theorem claim_C10_theorem (listing : List String) (now : CivilDate)
    (dateArg : Option String) (loader : String → Bool) (genaiResp : Option String)
    (r : RecapResult)
    (h : get_daily_recap listing now dateArg loader genaiResp = .ok r)
    (hs : r.source = "daily_recap") :
    r.scenes_used = get_daily_scenes listing now dateArg ∧
    r.scene_count = ((get_daily_scenes listing now dateArg).filter loader).length ∧
    r.scene_count ≤ r.scenes_used.length ∧
    ((∃ p, p ∈ get_daily_scenes listing now dateArg ∧ loader p = false) →
      r.scene_count < r.scenes_used.length) := by
  simp only [get_daily_recap] at h
  split at h
  · cases h
    simp at hs
  · split at h
    · cases h
      simp at hs
    · split at h
      · rename_i t hgen
        cases h
        refine ⟨rfl, rfl, (List.filter_sublist _).length_le, ?_⟩
        rintro ⟨p, hp, hpl⟩
        exact List.length_filter_lt_length_iff_exists.mpr ⟨p, hp, by simp [hpl]⟩
      · exact absurd h (by simp)

set_option maxRecDepth 8000 in
theorem claim_C10_witness :
    (⟨"success", "Day.", "daily_recap",
      ["scenes/scene_20250620_090000.jpg", "scenes/scene_20250620_100000.jpg"],
      1⟩ : RecapResult).scene_count <
    (⟨"success", "Day.", "daily_recap",
      ["scenes/scene_20250620_090000.jpg", "scenes/scene_20250620_100000.jpg"],
      1⟩ : RecapResult).scenes_used.length := by
  have H := claim_C10_theorem
    ["scene_20250620_090000.jpg", "scene_20250620_100000.jpg"] ⟨2025, 6, 21⟩
    (some "20250620") (fun p => p == "scenes/scene_20250620_090000.jpg")
    (some "Day.")
    ⟨"success", "Day.", "daily_recap",
      ["scenes/scene_20250620_090000.jpg", "scenes/scene_20250620_100000.jpg"], 1⟩
    (by decide) rfl
  exact H.2.2.2 ⟨"scenes/scene_20250620_100000.jpg", by decide, by decide⟩

end Glasses
